import Mathlib

/-!
Shallow embedding of the Lamport distributed mutual-exclusion middleware
(`dme.py`, class `LamportDME`) and verification of its specification.

Modelling choices:
* The process-wide mutable state of a `LamportDME` instance (clock,
  request queue, outstanding-replies set, the replies event flag) is the
  structure `DMEState`; methods become functions threading that state.
* The Python `PriorityQueue` of `(timestamp, node_id)` pairs is modelled
  as the list of its entries; the heap root `queue.queue[0]` is the
  minimal entry under Python's tuple comparison (numeric timestamp first,
  then code-point-lexicographic node id), captured by `peekHead`.
* Python's unbounded non-negative clock is a `Nat`; node ids are `String`
  with Lean's code-point-lexicographic order, matching Python's.
* The Python `set` `replies_needed` is a `Finset String`; `set.discard`
  is `Finset.erase` (a no-op when absent) and `set.remove` is guarded by
  a membership test exactly as in the source.
* Network effects are parameters: a send's transport outcome (failure or
  a successful exchange) is an explicit argument, since the embedding is
  of the local state transitions the code performs in each case.
-/

namespace DME

/-- A request record: `(timestamp, node_id)`, as stored in
`self.request_queue` (`dme.py` line 31). -/
abbrev Req := Nat × String

/-- The shared mutable state of one `LamportDME` node:
`self.clock`, `self.request_queue`, `self.replies_needed`,
`self.replies_event` (`dme.py` lines 23-31). -/
structure DMEState where
  clock : Nat
  request_queue : List Req
  replies_needed : Finset String
  replies_event : Bool

/-- `_increment_clock(self, other_ts=None)` (`dme.py` lines 38-44):
with no argument the clock becomes `clock + 1`; with an observed
timestamp it becomes `max(clock, other_ts) + 1`; the new value is
returned. -/
def _increment_clock (s : DMEState) (other_ts : Option Nat) : Nat × DMEState :=
  match other_ts with
  | none =>
      let c := s.clock + 1
      (c, { s with clock := c })
  | some t =>
      let c := max s.clock t + 1
      (c, { s with clock := c })

/-- Python's comparison on `(timestamp, node_id)` tuples: numeric order
on the timestamp, ties broken by lexicographic order on the node id.
This is the order the `PriorityQueue` heap uses. -/
def reqLe (a b : Req) : Prop :=
  a.1 < b.1 ∨ (a.1 = b.1 ∧ a.2 ≤ b.2)

instance (a b : Req) : Decidable (reqLe a b) := by
  unfold reqLe; infer_instance

/-- The smaller of two request records under `reqLe`. -/
def reqMin (a b : Req) : Req :=
  if reqLe a b then a else b

/-- The heap root `self.request_queue.queue[0]`: the minimal record of
the queue under the `(timestamp, node_id)` order, or `none` when the
queue is empty (the code guards the access with
`if not self.request_queue.empty()`). -/
def peekHead : List Req → Option Req
  | [] => none
  | x :: xs => some (xs.foldl reqMin x)

set_option linter.unusedVariables false in
/-- `_remove_request(self, nid, ts)` (`dme.py` lines 96-105): the queue
is drained and rebuilt keeping the items `it` with `it[1] != nid`.  The
`ts` argument is accepted but never consulted by the filter. -/
def _remove_request (nid : String) (ts : Nat) (q : List Req) : List Req :=
  q.filter (fun it => it.2 ≠ nid)

/-- An inbound protocol message, after JSON decoding, dispatched on its
`"type"` field (`dme.py` lines 58-89).  `unknown` covers every decoded
message whose type is none of `REQUEST`, `RELEASE`, `REPLY`. -/
inductive Msg where
  | request (ts : Nat) (nid : String)
  | release (ts : Nat) (nid : String)
  | reply (ts : Nat) (nid : String)
  | unknown (typ : String)

/-- What the listener writes back on the accepted connection. -/
inductive Response where
  | replyMsg (timestamp : Nat) (node_id : String)
  | ack
  | err (message : String)

/-- One iteration of the listener body `_listener` (`dme.py` lines
57-89) on a decoded message: the state transition it performs and the
response it sends back over the same connection. -/
def handleMessage (my_id : String) (s : DMEState) (m : Msg) :
    DMEState × Response :=
  match m with
  | Msg.request ts nid =>
      let s1 := (_increment_clock s (some ts)).2
      let s2 := { s1 with request_queue := s1.request_queue ++ [(ts, nid)] }
      let r := _increment_clock s2 none
      (r.2, Response.replyMsg r.1 my_id)
  | Msg.release ts nid =>
      let s1 := (_increment_clock s (some ts)).2
      let s2 := { s1 with
        request_queue := _remove_request nid ts s1.request_queue }
      (s2, Response.ack)
  | Msg.reply ts nid =>
      let s1 := (_increment_clock s (some ts)).2
      if nid ∈ s1.replies_needed then
        let rn := s1.replies_needed.erase nid
        ({ s1 with
            replies_needed := rn,
            replies_event := if rn = ∅ then true else s1.replies_event },
         Response.ack)
      else
        (s1, Response.ack)
  | Msg.unknown _ =>
      (s, Response.err "unknown type")

/-- The transport outcome of one `_send_to_peer` call: either the
connect/send/recv raised (refused, timeout, reset), or the exchange
succeeded and the peer's response decoded to `data` (maybe empty). -/
inductive Transport where
  | fail
  | ok (data : Option Response)

/-- `_send_to_peer(self, peer, msg, expect_response, timeout)`
(`dme.py` lines 107-125): on success with `expect_response` the decoded
response (if any) is returned; on any exception the handler discards
`peer["id"]` from `self.replies_needed` and returns `None`.  Nothing is
ever raised to the caller. -/
def _send_to_peer (peer_id : String) (outcome : Transport)
    (expect_response : Bool) (s : DMEState) :
    Option Response × DMEState :=
  match outcome with
  | Transport.fail =>
      (none, { s with replies_needed := s.replies_needed.erase peer_id })
  | Transport.ok data =>
      if expect_response then
        match data with
        | some r => (some r, s)
        | none => (none, s)
      else (none, s)

/-- `release_critical_section(self, ts)` (`dme.py` lines 179-186):
remove the own request, tick the clock, broadcast RELEASE to every peer
with `expect_response=True`; `outcomes` gives each peer's transport
outcome. -/
def release_critical_section (my_id : String) (ts : Nat)
    (peers : List String) (outcomes : String → Transport)
    (s : DMEState) : DMEState :=
  let s1 := { s with
    request_queue := _remove_request my_id ts s.request_queue }
  let s2 := (_increment_clock s1 none).2
  peers.foldl (fun st p => (_send_to_peer p (outcomes p) true st).2) s2

/-- One evaluation of the wait-loop exit test in
`request_critical_section` (`dme.py` lines 143-176): given the locally
read flags — `have_all_replies` (the outstanding-replies set is empty)
and `elapsed` (the 10-second wait window has passed) — and the queue,
return `some ts` exactly when the code would `return ts` in this
iteration.  Both return paths first require the heap root to equal
`(ts, my_id)`. -/
def admission_check (my_id : String) (ts : Nat) (have_all_replies : Bool)
    (q : List Req) (elapsed : Bool) : Option Nat :=
  let head_ok :=
    match peekHead q with
    | none => false
    | some h => decide (h.2 = my_id) && decide (h.1 = ts)
  if have_all_replies && head_ok then some ts
  else if elapsed && head_ok then some ts
  else none

/-- The entry sequence of `request_critical_section` (`dme.py` lines
129-138): tick the clock for the request timestamp, enqueue the own
request, set the outstanding-replies set to all peer ids, and broadcast
REQUEST to every peer with `expect_response=True`.  The value returned
by each `_send_to_peer` call — the peer's REPLY, which travels back
over the same connection and is read inside `_send_to_peer` — is
discarded by the caller (line 138), so a successful exchange leaves the
local state untouched; only a transport failure changes it (the
eviction inside `_send_to_peer`). -/
def request_critical_section_entry (my_id : String) (peers : List String)
    (outcomes : String → Transport) (s : DMEState) : Nat × DMEState :=
  let r := _increment_clock s none
  let s1 := { r.2 with request_queue := r.2.request_queue ++ [(r.1, my_id)] }
  let s2 := { s1 with replies_needed := peers.toFinset }
  (r.1,
   peers.foldl (fun st p => (_send_to_peer p (outcomes p) true st).2) s2)

theorem reqLe_refl (a : Req) : reqLe a a := Or.inr ⟨rfl, le_refl _⟩

theorem reqLe_total (a b : Req) : reqLe a b ∨ reqLe b a := by
  rcases lt_trichotomy a.1 b.1 with h | h | h
  · exact Or.inl (Or.inl h)
  · rcases le_total a.2 b.2 with h2 | h2
    · exact Or.inl (Or.inr ⟨h, h2⟩)
    · exact Or.inr (Or.inr ⟨h.symm, h2⟩)
  · exact Or.inr (Or.inl h)

theorem reqLe_trans {a b c : Req} (hab : reqLe a b) (hbc : reqLe b c) :
    reqLe a c := by
  rcases hab with h1 | ⟨e1, l1⟩
  · rcases hbc with h2 | ⟨e2, _⟩
    · exact Or.inl (h1.trans h2)
    · exact Or.inl (e2 ▸ h1)
  · rcases hbc with h2 | ⟨e2, l2⟩
    · exact Or.inl (e1 ▸ h2)
    · exact Or.inr ⟨e1.trans e2, l1.trans l2⟩

theorem reqMin_le_left (a b : Req) : reqLe (reqMin a b) a := by
  unfold reqMin
  split
  · exact reqLe_refl a
  · rcases reqLe_total a b with h | h
    · exact absurd h (by assumption)
    · exact h

theorem reqMin_le_right (a b : Req) : reqLe (reqMin a b) b := by
  unfold reqMin
  split
  · assumption
  · exact reqLe_refl b

theorem reqMin_eq_or (a b : Req) : reqMin a b = a ∨ reqMin a b = b := by
  unfold reqMin
  split
  · exact Or.inl rfl
  · exact Or.inr rfl

theorem foldl_reqMin_mem (xs : List Req) (x : Req) :
    xs.foldl reqMin x = x ∨ xs.foldl reqMin x ∈ xs := by
  induction xs generalizing x with
  | nil => exact Or.inl rfl
  | cons y ys ih =>
      rcases ih (reqMin x y) with h | h
      · rcases reqMin_eq_or x y with h2 | h2
        · exact Or.inl (by rw [List.foldl_cons, h, h2])
        · refine Or.inr ?_
          rw [List.foldl_cons, h, h2]
          exact List.mem_cons_self y ys
      · exact Or.inr (List.mem_cons_of_mem _ h)

theorem foldl_reqMin_le_init (xs : List Req) (x : Req) :
    reqLe (xs.foldl reqMin x) x := by
  induction xs generalizing x with
  | nil => exact reqLe_refl x
  | cons y ys ih =>
      exact reqLe_trans (ih (reqMin x y)) (reqMin_le_left x y)

theorem foldl_reqMin_le_mem (xs : List Req) (x : Req) :
    ∀ r ∈ xs, reqLe (xs.foldl reqMin x) r := by
  induction xs generalizing x with
  | nil => intro r hr; cases hr
  | cons y ys ih =>
      intro r hr
      rcases List.mem_cons.mp hr with h | h
      · subst h
        exact reqLe_trans (foldl_reqMin_le_init ys (reqMin x r))
          (reqMin_le_right x r)
      · exact ih (reqMin x y) r h

/-- C5: `tick()` (no argument) sets the clock to `clock + 1` and returns
the new value; `tick(observed)` sets it to `max(clock, observed) + 1`
and returns the new value; every call strictly increases the clock, and
after observing a remote timestamp `t` the clock is at least `t + 1`. -/
theorem clock_tick_spec (s : DMEState) (t : Nat) :
    (_increment_clock s none).1 = s.clock + 1 ∧
    (_increment_clock s none).2.clock = s.clock + 1 ∧
    (_increment_clock s (some t)).1 = max s.clock t + 1 ∧
    (_increment_clock s (some t)).2.clock = max s.clock t + 1 ∧
    s.clock < (_increment_clock s none).2.clock ∧
    s.clock < (_increment_clock s (some t)).2.clock ∧
    t + 1 ≤ (_increment_clock s (some t)).2.clock := by
  refine ⟨rfl, rfl, rfl, rfl, ?_, ?_, ?_⟩
  all_goals simp only [_increment_clock]
  all_goals omega

/-- C7: the head of the request queue is the minimal record under the
order (timestamp ascending, ties broken by node-id lexicographic
ascending): `peekHead` returns `none` exactly on the empty queue, and
otherwise a member of the queue that is `reqLe` every record in it. -/
theorem peekHead_spec (q : List Req) :
    (q = [] → peekHead q = none) ∧
    (∀ m, peekHead q = some m → m ∈ q ∧ ∀ r ∈ q, reqLe m r) := by
  cases q with
  | nil =>
      refine ⟨fun _ => rfl, ?_⟩
      intro m h
      simp [peekHead] at h
  | cons x xs =>
      refine ⟨fun h => absurd h (List.cons_ne_nil x xs), ?_⟩
      intro m h
      have hm : m = xs.foldl reqMin x := by
        simpa [peekHead] using h.symm
      subst hm
      constructor
      · rcases foldl_reqMin_mem xs x with h1 | h1
        · rw [h1]; exact List.mem_cons_self x xs
        · exact List.mem_cons_of_mem _ h1
      · intro r hr
        rcases List.mem_cons.mp hr with h1 | h1
        · subst h1; exact foldl_reqMin_le_init xs r
        · exact foldl_reqMin_le_mem xs x r h1

/-- Witness for `peekHead_spec` at the concrete queue
`[(2, "B"), (1, "A")]`, whose head is `(1, "A")`. -/
theorem peekHead_spec_witness :
    ((1, "A") : Req) ∈ ([(2, "B"), (1, "A")] : List Req) ∧
    ∀ r ∈ ([(2, "B"), (1, "A")] : List Req), reqLe (1, "A") r :=
  (peekHead_spec [(2, "B"), (1, "A")]).2 (1, "A") (by decide)

/-- C6: for every inbound `REQUEST(ts, nid)` the listener sets the clock
to `max(clock, ts) + 1`, inserts `(ts, nid)` into the request queue, and
answers with exactly one REPLY carrying a freshly ticked timestamp
(`max(clock, ts) + 1 + 1`, the clock after the reply tick) and the local
node's id — for every state, hence regardless of any pending local
request; the outstanding-replies set and event are untouched. -/
theorem listener_request_spec (my_id : String) (s : DMEState)
    (ts : Nat) (nid : String) :
    (handleMessage my_id s (Msg.request ts nid)).1.request_queue
        = s.request_queue ++ [(ts, nid)] ∧
    (handleMessage my_id s (Msg.request ts nid)).1.clock
        = (max s.clock ts + 1) + 1 ∧
    (handleMessage my_id s (Msg.request ts nid)).2
        = Response.replyMsg
            ((handleMessage my_id s (Msg.request ts nid)).1.clock) my_id ∧
    (handleMessage my_id s (Msg.request ts nid)).1.replies_needed
        = s.replies_needed ∧
    (handleMessage my_id s (Msg.request ts nid)).1.replies_event
        = s.replies_event :=
  ⟨rfl, rfl, rfl, rfl, rfl⟩

/-- C9: an inbound message of unrecognized kind is answered with an
explicit error status and mutates neither the clock, nor the request
queue, nor the outstanding-replies set (the state is returned
unchanged). -/
theorem listener_unknown_spec (my_id typ : String) (s : DMEState) :
    (handleMessage my_id s (Msg.unknown typ)).1.clock = s.clock ∧
    (handleMessage my_id s (Msg.unknown typ)).1.request_queue
        = s.request_queue ∧
    (handleMessage my_id s (Msg.unknown typ)).1.replies_needed
        = s.replies_needed ∧
    (handleMessage my_id s (Msg.unknown typ)).1.replies_event
        = s.replies_event ∧
    (handleMessage my_id s (Msg.unknown typ)).2
        = Response.err "unknown type" :=
  ⟨rfl, rfl, rfl, rfl, rfl⟩

theorem handle_reply_state (my_id : String) (s : DMEState)
    (ts : Nat) (nid : String) :
    (handleMessage my_id s (Msg.reply ts nid)).1.clock = max s.clock ts + 1 ∧
    (handleMessage my_id s (Msg.reply ts nid)).1.replies_needed
        = s.replies_needed.erase nid ∧
    (handleMessage my_id s (Msg.reply ts nid)).1.request_queue
        = s.request_queue ∧
    (nid ∈ s.replies_needed → s.replies_needed.erase nid = ∅ →
        (handleMessage my_id s (Msg.reply ts nid)).1.replies_event = true) := by
  by_cases h : nid ∈ s.replies_needed
  · refine ⟨?_, ?_, ?_, ?_⟩
    · simp [handleMessage, _increment_clock, h]
    · simp [handleMessage, _increment_clock, h]
    · simp [handleMessage, _increment_clock, h]
    · intro _ h2
      simp [handleMessage, _increment_clock, h, h2]
  · refine ⟨?_, ?_, ?_, fun hmem _ => absurd hmem h⟩ <;>
      simp [handleMessage, _increment_clock, h,
        Finset.erase_eq_of_not_mem h]

/-- C1 fails on the code: every peer's REPLY to the broadcast REQUEST
travels back over the same connection and is returned by
`_send_to_peer`, where `request_critical_section` discards it; no
component of the system ever delivers a standalone REPLY to the
listener's REPLY branch — the only code that removes ids from the
outstanding-replies set and signals the event.  In the claimed
scenario — node `A` requests and every peer (`B`, `C`) responds
successfully — the outstanding-replies set does not shrink at all and
the waiting coordinator is never signaled: after the broadcast the set
still holds every peer and the event flag is still unset, so admission
can come only from the bounded-wait fallback. -/
theorem reply_discarded_no_drain :
    (request_critical_section_entry "A" ["B", "C"]
        (fun p => Transport.ok (some (Response.replyMsg 2 p)))
        { clock := 0, request_queue := [],
          replies_needed := ∅, replies_event := false }).2.replies_needed
      = ({"B", "C"} : Finset String) ∧
    ({"B", "C"} : Finset String) ≠ (∅ : Finset String) ∧
    (request_critical_section_entry "A" ["B", "C"]
        (fun p => Transport.ok (some (Response.replyMsg 2 p)))
        { clock := 0, request_queue := [],
          replies_needed := ∅, replies_event := false }).2.replies_event
      = false := by
  refine ⟨by decide, by decide, rfl⟩

/-- C3: the wait loop of `request_critical_section` returns a ticket
only when, at that moment, the local request `(ts, my_id)` is at the
head of the request queue, and in addition either the
outstanding-replies set is empty (`have_all_replies`) or the bounded
wait window has elapsed (the liveness fallback); the returned ticket is
`ts` itself. -/
theorem admission_check_spec (my_id : String) (ts : Nat)
    (have_all_replies : Bool) (q : List Req) (elapsed : Bool) (r : Nat)
    (h : admission_check my_id ts have_all_replies q elapsed = some r) :
    r = ts ∧ peekHead q = some (ts, my_id) ∧
    (have_all_replies = true ∨ elapsed = true) := by
  cases hq : peekHead q with
  | none =>
      simp only [admission_check, hq] at h
      simp at h
  | some hd =>
      obtain ⟨hts, hid⟩ := hd
      simp only [admission_check, hq] at h
      split at h
      · rename_i hc
        simp only [Bool.and_eq_true, decide_eq_true_eq] at hc
        obtain ⟨har, hid2, hts2⟩ := hc
        refine ⟨(Option.some.inj h).symm, ?_, Or.inl har⟩
        rw [hid2, hts2]
      · split at h
        · rename_i hc
          simp only [Bool.and_eq_true, decide_eq_true_eq] at hc
          obtain ⟨hel, hid2, hts2⟩ := hc
          refine ⟨(Option.some.inj h).symm, ?_, Or.inr hel⟩
          rw [hid2, hts2]
        · exact absurd h (by simp)

/-- Witness for `admission_check_spec`: node `A` with ticket 1, all
replies in, `(1, "A")` at the head of the queue, window not elapsed. -/
theorem admission_check_spec_witness :
    (1 : Nat) = 1 ∧ peekHead [((1 : Nat), "A"), (4, "B")] = some (1, "A") ∧
    ((true : Bool) = true ∨ (false : Bool) = true) :=
  admission_check_spec "A" 1 true [(1, "A"), (4, "B")] false 1 (by decide)

theorem count_filter_of_pos (p : Req → Bool) (r : Req) (hp : p r = true)
    (q : List Req) : (q.filter p).count r = q.count r := by
  induction q with
  | nil => rfl
  | cons x xs ih =>
      rw [List.filter_cons]
      by_cases hx : p x = true
      · rw [if_pos hx, List.count_cons, List.count_cons, ih]
      · have hxr : ¬ x = r := fun he => hx (by rw [he]; exact hp)
        have hne : (r == x) = false :=
          beq_eq_false_iff_ne.mpr (fun he => hxr he.symm)
        rw [if_neg hx, List.count_cons]
        simp [hne, hxr, ih]

/-- C10: the internal queue removal only ever deletes records of the
given node id: every record whose node id differs keeps its exact
multiplicity in the queue (the multiset of other nodes' records is
unchanged). -/
theorem remove_request_frame (nid : String) (ts : Nat) (q : List Req)
    (r : Req) (h : r.2 ≠ nid) :
    (_remove_request nid ts q).count r = q.count r := by
  unfold _remove_request
  have hp : (fun it : Req => decide (it.2 ≠ nid)) r = true := by
    simp only [decide_eq_true_eq]
    exact h
  exact count_filter_of_pos _ r hp q

/-- Witness for `remove_request_frame`: removing node `A`'s records from
`[(1, "A"), (2, "B")]` keeps the multiplicity of `(2, "B")` at 1. -/
theorem remove_request_frame_witness :
    (_remove_request "A" 3 [(1, "A"), (2, "B")]).count ((2 : Nat), "B")
      = ([((1 : Nat), "A"), (2, "B")] : List Req).count (2, "B") :=
  remove_request_frame "A" 3 [(1, "A"), (2, "B")] (2, "B") (by decide)

theorem remove_request_eq_erase (nid : String) (ts : Nat) :
    ∀ q : List Req,
      (∀ r ∈ q, r.2 = nid → r = ((ts, nid) : Req)) →
      q.count ((ts, nid) : Req) ≤ 1 →
      _remove_request nid ts q = q.erase ((ts, nid) : Req) := by
  intro q
  induction q with
  | nil => intro _ _; rfl
  | cons x xs ih =>
      intro huniq hcount
      by_cases hx : x = ((ts, nid) : Req)
      · subst hx
        rw [List.erase_cons_head]
        have hxs : ∀ r ∈ xs, r.2 ≠ nid := by
          intro r hr hrnid
          have hreq : r = ((ts, nid) : Req) :=
            huniq r (List.mem_cons_of_mem _ hr) hrnid
          subst hreq
          have hpos : 0 < xs.count ((ts, nid) : Req) :=
            List.count_pos_iff.mpr hr
          have h1 : xs.count ((ts, nid) : Req) + 1 ≤ 1 := by
            calc xs.count ((ts, nid) : Req) + 1
                = (((ts, nid) : Req) :: xs).count ((ts, nid) : Req) :=
                  (List.count_cons_self _ _).symm
              _ ≤ 1 := hcount
          omega
        unfold _remove_request
        rw [List.filter_cons, if_neg (by simp)]
        exact List.filter_eq_self.mpr fun a ha => by simpa using hxs a ha
      · have hx2 : x.2 ≠ nid :=
          fun h2 => hx (huniq x (List.mem_cons_self x xs) h2)
        have hbeq : ¬ (x == ((ts, nid) : Req)) = true := by
          simp only [beq_iff_eq]
          exact hx
        rw [List.erase_cons_tail hbeq]
        have hcount2 : xs.count ((ts, nid) : Req) ≤ 1 := by
          rw [List.count_cons, if_neg hbeq] at hcount
          omega
        have hih := ih
          (fun r hr h2 => huniq r (List.mem_cons_of_mem _ hr) h2) hcount2
        unfold _remove_request
        rw [List.filter_cons, if_pos (by simpa using hx2)]
        exact congrArg (List.cons x) hih

/-- C2 as stated is false on the code: `_remove_request` ignores its
timestamp argument, so removing `("A", 1)` from a queue holding both
`(1, "A")` and `(5, "A")` also deletes `(5, "A")`, a record with the
same node id but a different timestamp. -/
theorem remove_request_ignores_timestamp_cex :
    ((5, "A") : Req) ∈ ([(1, "A"), (5, "A")] : List Req) ∧
    ((5 : Nat), "A") ≠ ((1 : Nat), "A") ∧
    ((5, "A") : Req) ∉ _remove_request "A" 1 [(1, "A"), (5, "A")] := by
  decide

/-- C2 (amended): `_remove_request(nid, ts)` removes every record whose
node id equals `nid`, regardless of timestamp (membership
characterization); under the documented invariant of at most one
outstanding record per node id — here: any record bearing `nid` is
`(ts, nid)` and it occurs at most once — the call removes exactly the
matching record, i.e. equals erasing `(ts, nid)`. -/
theorem remove_request_exact_spec (nid : String) (ts : Nat) (q : List Req)
    (huniq : ∀ r ∈ q, r.2 = nid → r = ((ts, nid) : Req))
    (hcount : q.count ((ts, nid) : Req) ≤ 1) :
    (∀ r : Req, r ∈ _remove_request nid ts q ↔ r ∈ q ∧ r.2 ≠ nid) ∧
    _remove_request nid ts q = q.erase ((ts, nid) : Req) := by
  refine ⟨fun r => ?_, remove_request_eq_erase nid ts q huniq hcount⟩
  unfold _remove_request
  simp [List.mem_filter]

/-- Witness for `remove_request_exact_spec`: removing `("A", 5)` from
`[(5, "A"), (3, "B")]` erases exactly the record `(5, "A")`. -/
theorem remove_request_exact_spec_witness :
    _remove_request "A" 5 [(5, "A"), (3, "B")]
      = ([(5, "A"), (3, "B")] : List Req).erase ((5, "A") : Req) :=
  (remove_request_exact_spec "A" 5 [(5, "A"), (3, "B")]
    (by decide) (by decide)).2

/-- C8 as stated is false on the code: the record `(7, "B")` is not in
the queue `[(3, "B")]`, yet `_remove_request "B" 7` does change the
queue (it deletes `(3, "B")`, matching on the node id alone). -/
theorem remove_absent_record_cex :
    ((7, "B") : Req) ∉ ([(3, "B")] : List Req) ∧
    _remove_request "B" 7 [(3, "B")] ≠ [((3 : Nat), "B")] := by
  decide

/-- C8 (amended): calling `_remove_request` for a node id with no record
in the queue — in particular a second release with the same ticket,
after the first removed all of that node's records — leaves the queue
unchanged and raises no error; repeating the removal is always a no-op
(idempotence), so duplicate RELEASE sequences do not corrupt queue
state. -/
theorem remove_request_noop_spec (nid : String) (ts : Nat) (q : List Req)
    (h : ∀ r ∈ q, r.2 ≠ nid) :
    _remove_request nid ts q = q ∧
    ∀ (ts2 : Nat) (q2 : List Req),
      _remove_request nid ts2 (_remove_request nid ts q2)
        = _remove_request nid ts q2 := by
  constructor
  · unfold _remove_request
    refine List.filter_eq_self.mpr ?_
    intro a ha
    simpa using h a ha
  · intro ts2 q2
    unfold _remove_request
    refine List.filter_eq_self.mpr ?_
    intro a ha
    exact (List.mem_filter.mp ha).2

/-- Witness for `remove_request_noop_spec`: removing node `C`, which has
no record in `[(3, "B")]`, leaves the queue unchanged. -/
theorem remove_request_noop_spec_witness :
    _remove_request "C" 1 [(3, "B")] = [((3 : Nat), "B")] :=
  (remove_request_noop_spec "C" 1 [(3, "B")] (by decide)).1

theorem broadcast_replies_invariant (outcomes : String → Transport)
    (peers : List String) :
    ∀ st : DMEState, (∀ p ∈ peers, p ∉ st.replies_needed) →
      (peers.foldl
          (fun st p => (_send_to_peer p (outcomes p) true st).2)
          st).replies_needed
        = st.replies_needed := by
  induction peers with
  | nil => intro st _; rfl
  | cons x xs ih =>
      intro st h
      rw [List.foldl_cons]
      have hx : (_send_to_peer x (outcomes x) true st).2.replies_needed
          = st.replies_needed := by
        cases ho : outcomes x with
        | fail =>
            simp [_send_to_peer,
              Finset.erase_eq_of_not_mem (h x (List.mem_cons_self x xs))]
        | ok d =>
            cases d <;> simp [_send_to_peer]
      have h2 : ∀ p ∈ xs,
          p ∉ (_send_to_peer x (outcomes x) true st).2.replies_needed := by
        intro p hp
        rw [hx]
        exact h p (List.mem_cons_of_mem _ hp)
      rw [ih _ h2, hx]

/-- C4 as stated is false on the code: `_send_to_peer`'s exception
handler always discards the peer's id from the outstanding-replies set,
so a transport failure while broadcasting RELEASE does mutate the set
when the failing peer's id is still in it (possible after a
liveness-fallback admission): here `{"B"}` becomes `∅`. -/
theorem release_failure_evicts_cex :
    (release_critical_section "A" 1 ["B"] (fun _ => Transport.fail)
        { clock := 3, request_queue := [(1, "A")],
          replies_needed := {"B"}, replies_event := false }).replies_needed
      = (∅ : Finset String) ∧
    ({"B"} : Finset String) ≠ (∅ : Finset String) := by
  constructor
  · rfl
  · decide

/-- C4 (amended): on any transport failure `_send_to_peer` returns no
response instead of raising and — on the acquire and release paths
alike — discards the failing peer's id from the outstanding-replies
set; the discard is a no-op exactly when the id is not in the set, so a
RELEASE broadcast whose peers are all absent from the set (the usual
case, acquisition having drained it) leaves the set unchanged whatever
the transport outcomes. -/
theorem send_failure_spec (peer_id : String) (er : Bool) (s : DMEState)
    (my_id : String) (ts : Nat) (peers : List String)
    (outcomes : String → Transport)
    (hq : ∀ p ∈ peers, p ∉ s.replies_needed) :
    (_send_to_peer peer_id Transport.fail er s).1 = none ∧
    (_send_to_peer peer_id Transport.fail er s).2.replies_needed
        = s.replies_needed.erase peer_id ∧
    (peer_id ∉ s.replies_needed →
      (_send_to_peer peer_id Transport.fail er s).2.replies_needed
        = s.replies_needed) ∧
    (release_critical_section my_id ts peers outcomes s).replies_needed
        = s.replies_needed := by
  refine ⟨rfl, rfl, ?_, ?_⟩
  · intro hmem
    simp [_send_to_peer, Finset.erase_eq_of_not_mem hmem]
  · simp only [release_critical_section]
    exact broadcast_replies_invariant outcomes peers _ hq

/-- Witness for `send_failure_spec`: node `A` releases towards a dead
peer `B` with an empty outstanding-replies set; the send reports no
response and the set stays empty. -/
theorem send_failure_spec_witness :
    (_send_to_peer "B" Transport.fail true
        { clock := 0, request_queue := [(1, "A")],
          replies_needed := ∅, replies_event := false }).1 = none ∧
    (release_critical_section "A" 1 ["B"] (fun _ => Transport.fail)
        { clock := 0, request_queue := [(1, "A")],
          replies_needed := ∅, replies_event := false }).replies_needed
      = (∅ : Finset String) := by
  have h := send_failure_spec "B" true
    { clock := 0, request_queue := [(1, "A")],
      replies_needed := ∅, replies_event := false }
    "A" 1 ["B"] (fun _ => Transport.fail) (by simp)
  exact ⟨h.1, h.2.2.2⟩

end DME
